import Mathlib

/-!
Verification of the TEMU orchestration core against its specification.

Each definition is a shallow embedding of a function of the TypeScript
source; the module and symbol it embeds are named in its doc comment.
Machine integers are modelled as `Nat` (no arithmetic here overflows),
`undefined`/`null`-able values as `Option`, thrown exceptions as
`Except String`, JS `Map`s as association lists, and the `uuid`/
`Date.now()` effects as explicitly passed fresh-id / clock arguments.
-/

namespace Temu

/-! ## Task list (`src/teams/task-list.ts`) -/

/-- `TaskStatus` from `task-list.ts`. -/
inductive TaskStatus
  | pending
  | in_progress
  | completed
  | blocked
deriving DecidableEq

/-- `TaskItem` from `task-list.ts`; `assignee : string | null` becomes
`Option String`, the optional `result` becomes `Option String`. -/
structure TaskItem where
  id : String
  title : String
  description : String
  status : TaskStatus
  assignee : Option String
  blockedBy : List String
  result : Option String
  createdAt : Nat
  updatedAt : Nat
deriving DecidableEq

/-- The body of `TaskList.isUnblocked`'s `every` callback:
`this.tasks.find((t) => t.id === depId)?.status === 'completed'`. -/
def depCompleted (tasks : List TaskItem) (depId : String) : Bool :=
  match tasks.find? (fun t => t.id == depId) with
  | some dep => dep.status == .completed
  | none => false

/-- `TaskList.isUnblocked`. -/
def isUnblocked (tasks : List TaskItem) (task : TaskItem) : Bool :=
  if task.blockedBy.length == 0 then true
  else task.blockedBy.all (fun depId => depCompleted tasks depId)

/-- `TaskList.addTask`; `uuidv4().slice(0, 8)` is modelled by the
caller-supplied `freshId` and `Date.now()` by `now`.  Returns the created
task together with the new task array. -/
def addTask (tasks : List TaskItem) (freshId title description : String)
    (blockedBy : List String) (now : Nat) : TaskItem × List TaskItem :=
  let task : TaskItem :=
    { id := freshId, title := title, description := description
      status := if blockedBy.length > 0 then .blocked else .pending
      assignee := none, blockedBy := blockedBy, result := none
      createdAt := now, updatedAt := now }
  (task, tasks ++ [task])

/-- `TaskList.assignTask`: the `tasks.find((t) => t.id === taskId)`
followed by in-place mutation is written as structural recursion that
rewrites the first task whose id matches. -/
def assignTask (taskId assignee : String) (now : Nat) :
    List TaskItem → Bool × List TaskItem
  | [] => (false, [])
  | t :: rest =>
    if t.id == taskId then
      if t.status == .pending then
        (true, { t with assignee := some assignee, status := .in_progress,
                        updatedAt := now } :: rest)
      else
        (false, t :: rest)
    else
      let r := assignTask taskId assignee now rest
      (r.1, t :: r.2)

/-- The `tasks.find((t) => t.status === 'pending' && this.isUnblocked(t))`
scan of `TaskList.claimNextTask`, with `full` the whole task array that
`isUnblocked` consults. -/
def claimAux (full : List TaskItem) (assignee : String) (now : Nat) :
    List TaskItem → Option TaskItem × List TaskItem
  | [] => (none, [])
  | t :: rest =>
    if t.status == .pending && isUnblocked full t then
      let t' := { t with assignee := some assignee, status := .in_progress,
                         updatedAt := now }
      (some t', t' :: rest)
    else
      let r := claimAux full assignee now rest
      (r.1, t :: r.2)

/-- `TaskList.claimNextTask`. -/
def claimNextTask (tasks : List TaskItem) (assignee : String) (now : Nat) :
    Option TaskItem × List TaskItem :=
  claimAux tasks assignee now tasks

/-- The find-and-mutate part of `TaskList.completeTask` (before
`updateBlockedTasks` runs). -/
def setCompleted (taskId : String) (result : Option String) (now : Nat) :
    List TaskItem → Bool × List TaskItem
  | [] => (false, [])
  | t :: rest =>
    if t.id == taskId then
      (true, { t with status := .completed, result := result,
                      updatedAt := now } :: rest)
    else
      let r := setCompleted taskId result now rest
      (r.1, t :: r.2)

/-- The `for (const task of this.tasks)` loop of
`TaskList.updateBlockedTasks`: `done` is the already-visited portion of
the array (mutations included), so `isUnblocked` sees the current state
`done ++ t :: rest` exactly as the in-place loop does. -/
def updateBlockedAux (now : Nat) : List TaskItem → List TaskItem → List TaskItem
  | done, [] => done
  | done, t :: rest =>
    if t.status == .blocked && isUnblocked (done ++ t :: rest) t then
      updateBlockedAux now (done ++ [{ t with status := .pending, updatedAt := now }]) rest
    else
      updateBlockedAux now (done ++ [t]) rest

/-- `TaskList.updateBlockedTasks`. -/
def updateBlockedTasks (tasks : List TaskItem) (now : Nat) : List TaskItem :=
  updateBlockedAux now [] tasks

/-- `TaskList.completeTask`. -/
def completeTask (tasks : List TaskItem) (taskId : String)
    (result : Option String) (now : Nat) : Bool × List TaskItem :=
  let r := setCompleted taskId result now tasks
  if r.1 then (true, updateBlockedTasks r.2 now) else (false, r.2)

/-- One mutating `TaskList` operation (the four methods that change task
state). -/
inductive TaskOp
  | add (freshId title description : String) (blockedBy : List String) (now : Nat)
  | assign (taskId who : String) (now : Nat)
  | claim (who : String) (now : Nat)
  | complete (taskId : String) (result : Option String) (now : Nat)

/-- The effect of one `TaskList` operation on the task array. -/
def applyOp (tasks : List TaskItem) : TaskOp → List TaskItem
  | .add f t d b n => (addTask tasks f t d b n).2
  | .assign i w n => (assignTask i w n tasks).2
  | .claim w n => (claimNextTask tasks w n).2
  | .complete i r n => (completeTask tasks i r n).2

/-! ### Analysis of `updateBlockedTasks`

The in-place loop promotes blocked tasks while it walks the array; the
promotions it performs never change which tasks count as `completed`, so
the loop computes the same result as a one-pass `map` over the original
array.  `promotedFrom` records how a task visible to a later iteration
may differ from the original array entry. -/

/-- `new` is `old` possibly promoted from `blocked` to `pending` (ids,
blockers unchanged). -/
def promotedFrom (old new : TaskItem) : Prop :=
  new.id = old.id ∧ new.blockedBy = old.blockedBy ∧
    (new.status = old.status ∨ (old.status = .blocked ∧ new.status = .pending))

theorem promotedFrom_refl (t : TaskItem) : promotedFrom t t :=
  ⟨rfl, rfl, Or.inl rfl⟩

theorem promotedFrom_refl_all (l : List TaskItem) : List.Forall₂ promotedFrom l l :=
  List.forall₂_same.2 (fun t _ => promotedFrom_refl t)

theorem depCompleted_congr {l l' : List TaskItem}
    (h : List.Forall₂ promotedFrom l l') (d : String) :
    depCompleted l' d = depCompleted l d := by
  induction h with
  | nil => rfl
  | @cons a b l₁ l₂ hab _ ih =>
    obtain ⟨hid, _, hst⟩ := hab
    simp only [depCompleted, List.find?_cons, hid]
    cases hd : (a.id == d)
    · simpa [depCompleted] using ih
    · rcases hst with h1 | ⟨h2, h3⟩
      · simp [h1]
      · simp [h2, h3]

theorem isUnblocked_congr {l l' : List TaskItem}
    (h : List.Forall₂ promotedFrom l l') (t : TaskItem) :
    isUnblocked l' t = isUnblocked l t := by
  simp only [isUnblocked]
  split
  · rfl
  · exact congrArg _ (funext fun d => depCompleted_congr h d)

/-- The promotion each array entry undergoes, evaluated against the
original array `orig`. -/
def promoteView (orig : List TaskItem) (now : Nat) (t : TaskItem) : TaskItem :=
  if t.status == .blocked && isUnblocked orig t then
    { t with status := .pending, updatedAt := now }
  else t

theorem promotedFrom_promoteView (orig : List TaskItem) (now : Nat) (t : TaskItem) :
    promotedFrom t (promoteView orig now t) := by
  unfold promoteView
  split
  · rename_i h
    exact ⟨rfl, rfl, Or.inr ⟨by simpa using (Bool.and_elim_left h), rfl⟩⟩
  · exact promotedFrom_refl t

theorem updateBlockedAux_eq_map (now : Nat) :
    ∀ (rem p done : List TaskItem), List.Forall₂ promotedFrom p done →
      updateBlockedAux now done rem =
        done ++ rem.map (promoteView (p ++ rem) now) := by
  intro rem
  induction rem with
  | nil => intro p done _; simp [updateBlockedAux]
  | cons t rest ih =>
    intro p done h
    have hall : List.Forall₂ promotedFrom (p ++ t :: rest) (done ++ t :: rest) :=
      List.rel_append h (promotedFrom_refl_all (t :: rest))
    have hiso : isUnblocked (done ++ t :: rest) t = isUnblocked (p ++ t :: rest) t :=
      isUnblocked_congr hall t
    simp only [updateBlockedAux, hiso]
    by_cases hc : (t.status == .blocked && isUnblocked (p ++ t :: rest) t) = true
    · rw [if_pos hc]
      have hrel : List.Forall₂ promotedFrom (p ++ [t])
          (done ++ [{ t with status := .pending, updatedAt := now }]) := by
        refine List.rel_append h ?_
        exact List.Forall₂.cons
          ⟨rfl, rfl, Or.inr ⟨by simpa using (Bool.and_elim_left hc), rfl⟩⟩
          List.Forall₂.nil
      have := ih (p ++ [t]) (done ++ [{ t with status := .pending, updatedAt := now }]) hrel
      rw [this]
      simp [promoteView, hc, List.append_assoc]
    · rw [if_neg hc]
      have hrel : List.Forall₂ promotedFrom (p ++ [t]) (done ++ [t]) :=
        List.rel_append h (List.Forall₂.cons (promotedFrom_refl t) List.Forall₂.nil)
      have := ih (p ++ [t]) (done ++ [t]) hrel
      rw [this]
      simp [promoteView, hc, List.append_assoc]

/-- `updateBlockedTasks` is a one-pass promotion of every blocked task
whose blockers are all completed in the input array. -/
theorem updateBlockedTasks_eq_map (tasks : List TaskItem) (now : Nat) :
    updateBlockedTasks tasks now = tasks.map (promoteView tasks now) := by
  have := updateBlockedAux_eq_map now tasks [] [] List.Forall₂.nil
  simpa [updateBlockedTasks] using this

/-! ### Pointwise characterizations of the task-list operations -/

theorem assignTask_length (taskId w : String) (now : Nat) :
    ∀ ts : List TaskItem, ((assignTask taskId w now ts).2).length = ts.length := by
  intro ts
  induction ts with
  | nil => rfl
  | cons t rest ih =>
    by_cases h1 : (t.id == taskId) = true
    · by_cases h2 : (t.status == TaskStatus.pending) = true <;>
        simp [assignTask, h1, h2]
    · simp [assignTask, h1, ih]

theorem assignTask_pointwise (taskId w : String) (now : Nat) :
    ∀ (ts : List TaskItem) (j : Nat) (hj : j < ts.length)
      (hj' : j < ((assignTask taskId w now ts).2).length),
      ((assignTask taskId w now ts).2).get ⟨j, hj'⟩ = ts.get ⟨j, hj⟩ ∨
        ((ts.get ⟨j, hj⟩).status = .pending ∧
          ((assignTask taskId w now ts).2).get ⟨j, hj'⟩ =
            { ts.get ⟨j, hj⟩ with assignee := some w, status := .in_progress,
                                  updatedAt := now }) := by
  intro ts
  induction ts with
  | nil => intro j hj; exact absurd hj (by simp)
  | cons t rest ih =>
    intro j hj hj'
    by_cases h1 : (t.id == taskId) = true
    · by_cases h2 : (t.status == TaskStatus.pending) = true
      · cases j with
        | zero =>
          right
          refine ⟨by simpa using h2, ?_⟩
          simp [assignTask, h1, h2]
        | succ k => left; simp [assignTask, h1, h2]
      · left
        cases j with
        | zero => simp [assignTask, h1, h2]
        | succ k => simp [assignTask, h1, h2]
    · cases j with
      | zero => left; simp [assignTask, h1]
      | succ k =>
        have hk : k < rest.length := by simpa using hj
        have hk' : k < ((assignTask taskId w now rest).2).length := by
          simpa [assignTask_length] using hk
        have := ih k hk hk'
        simpa [assignTask, h1] using this

theorem claimAux_length (full : List TaskItem) (w : String) (now : Nat) :
    ∀ ts : List TaskItem, ((claimAux full w now ts).2).length = ts.length := by
  intro ts
  induction ts with
  | nil => rfl
  | cons t rest ih =>
    by_cases h1 : (t.status == TaskStatus.pending && isUnblocked full t) = true <;>
      simp [claimAux, h1, ih]

theorem claimAux_pointwise (full : List TaskItem) (w : String) (now : Nat) :
    ∀ (ts : List TaskItem) (j : Nat) (hj : j < ts.length)
      (hj' : j < ((claimAux full w now ts).2).length),
      ((claimAux full w now ts).2).get ⟨j, hj'⟩ = ts.get ⟨j, hj⟩ ∨
        ((ts.get ⟨j, hj⟩).status = .pending ∧
          ((claimAux full w now ts).2).get ⟨j, hj'⟩ =
            { ts.get ⟨j, hj⟩ with assignee := some w, status := .in_progress,
                                  updatedAt := now }) := by
  intro ts
  induction ts with
  | nil => intro j hj; exact absurd hj (by simp)
  | cons t rest ih =>
    intro j hj hj'
    by_cases h1 : (t.status == TaskStatus.pending && isUnblocked full t) = true
    · cases j with
      | zero =>
        right
        refine ⟨by simpa using (Bool.and_elim_left h1), ?_⟩
        simp [claimAux, h1]
      | succ k => left; simp [claimAux, h1]
    · cases j with
      | zero => left; simp [claimAux, h1]
      | succ k =>
        have hk : k < rest.length := by simpa using hj
        have hk' : k < ((claimAux full w now rest).2).length := by
          simpa [claimAux_length] using hk
        have := ih k hk hk'
        simpa [claimAux, h1] using this

theorem setCompleted_length (taskId : String) (r : Option String) (now : Nat) :
    ∀ ts : List TaskItem, ((setCompleted taskId r now ts).2).length = ts.length := by
  intro ts
  induction ts with
  | nil => rfl
  | cons t rest ih =>
    by_cases h1 : (t.id == taskId) = true <;> simp [setCompleted, h1, ih]

theorem setCompleted_pointwise (taskId : String) (r : Option String) (now : Nat) :
    ∀ (ts : List TaskItem) (j : Nat) (hj : j < ts.length)
      (hj' : j < ((setCompleted taskId r now ts).2).length),
      ((setCompleted taskId r now ts).2).get ⟨j, hj'⟩ = ts.get ⟨j, hj⟩ ∨
        ((setCompleted taskId r now ts).2).get ⟨j, hj'⟩ =
          { ts.get ⟨j, hj⟩ with status := .completed, result := r,
                                updatedAt := now } := by
  intro ts
  induction ts with
  | nil => intro j hj; exact absurd hj (by simp)
  | cons t rest ih =>
    intro j hj hj'
    by_cases h1 : (t.id == taskId) = true
    · cases j with
      | zero => right; simp [setCompleted, h1]
      | succ k => left; simp [setCompleted, h1]
    · cases j with
      | zero => left; simp [setCompleted, h1]
      | succ k =>
        have hk : k < rest.length := by simpa using hj
        have hk' : k < ((setCompleted taskId r now rest).2).length := by
          simpa [setCompleted_length] using hk
        have := ih k hk hk'
        simpa [setCompleted, h1] using this

theorem isUnblocked_blockedBy_congr (l : List TaskItem) {t u : TaskItem}
    (h : t.blockedBy = u.blockedBy) : isUnblocked l t = isUnblocked l u := by
  simp [isUnblocked, h]

theorem promotedFrom_map_promoteView (orig : List TaskItem) (now : Nat) :
    ∀ l : List TaskItem, List.Forall₂ promotedFrom l (l.map (promoteView orig now))
  | [] => List.Forall₂.nil
  | t :: rest =>
    List.Forall₂.cons (promotedFrom_promoteView orig now t)
      (promotedFrom_map_promoteView orig now rest)

theorem completeTask_length (ts : List TaskItem) (taskId : String)
    (r : Option String) (now : Nat) :
    ((completeTask ts taskId r now).2).length = ts.length := by
  unfold completeTask
  by_cases h : (setCompleted taskId r now ts).1 = true
  · simp [h, updateBlockedTasks_eq_map, setCompleted_length]
  · simp [h, setCompleted_length]

theorem applyOp_length (ts : List TaskItem) (op : TaskOp) :
    ts.length ≤ (applyOp ts op).length := by
  cases op with
  | add f t d b n => simp [applyOp, addTask]
  | assign i w n => simp [applyOp, assignTask_length]
  | claim w n => simp [applyOp, claimNextTask, claimAux_length]
  | complete i r n => simp [applyOp, completeTask_length]

theorem assignTask_entry (i w : String) (n : Nat) (ts : List TaskItem) (j : Nat)
    (old new : TaskItem) (hold : ts[j]? = some old)
    (hnew : ((assignTask i w n ts).2)[j]? = some new) :
    new = old ∨ (old.status = .pending ∧
      new = { old with assignee := some w, status := .in_progress, updatedAt := n }) := by
  rcases List.getElem?_eq_some_iff.1 hold with ⟨hj, hold'⟩
  rcases List.getElem?_eq_some_iff.1 hnew with ⟨hj', hnew'⟩
  have h := assignTask_pointwise i w n ts j hj hj'
  simp only [List.get_eq_getElem] at h
  rw [hold', hnew'] at h
  exact h

theorem claimAux_entry (full : List TaskItem) (w : String) (n : Nat)
    (ts : List TaskItem) (j : Nat) (old new : TaskItem) (hold : ts[j]? = some old)
    (hnew : ((claimAux full w n ts).2)[j]? = some new) :
    new = old ∨ (old.status = .pending ∧
      new = { old with assignee := some w, status := .in_progress, updatedAt := n }) := by
  rcases List.getElem?_eq_some_iff.1 hold with ⟨hj, hold'⟩
  rcases List.getElem?_eq_some_iff.1 hnew with ⟨hj', hnew'⟩
  have h := claimAux_pointwise full w n ts j hj hj'
  simp only [List.get_eq_getElem] at h
  rw [hold', hnew'] at h
  exact h

theorem setCompleted_entry (i : String) (r : Option String) (n : Nat)
    (ts : List TaskItem) (j : Nat) (old new : TaskItem) (hold : ts[j]? = some old)
    (hnew : ((setCompleted i r n ts).2)[j]? = some new) :
    new = old ∨ new = { old with status := .completed, result := r, updatedAt := n } := by
  rcases List.getElem?_eq_some_iff.1 hold with ⟨hj, hold'⟩
  rcases List.getElem?_eq_some_iff.1 hnew with ⟨hj', hnew'⟩
  have h := setCompleted_pointwise i r n ts j hj hj'
  simp only [List.get_eq_getElem] at h
  rw [hold', hnew'] at h
  exact h

theorem updateBlockedTasks_entry (ts : List TaskItem) (n : Nat) (j : Nat)
    (old new : TaskItem) (hold : ts[j]? = some old)
    (hnew : (updateBlockedTasks ts n)[j]? = some new) :
    new = promoteView ts n old := by
  rw [updateBlockedTasks_eq_map, List.getElem?_map, hold] at hnew
  simpa using hnew.symm

/-- After `updateBlockedTasks`, a task is unblocked exactly when it was
unblocked before (promotions do not create or destroy completed tasks). -/
theorem isUnblocked_updateBlockedTasks (ts : List TaskItem) (n : Nat) (t : TaskItem) :
    isUnblocked (updateBlockedTasks ts n) t = isUnblocked ts t := by
  rw [updateBlockedTasks_eq_map]
  exact isUnblocked_congr (promotedFrom_map_promoteView ts n ts) t

theorem setCompleted_false (i : String) (r : Option String) (n : Nat) :
    ∀ ts : List TaskItem, (setCompleted i r n ts).1 = false →
      (setCompleted i r n ts).2 = ts := by
  intro ts
  induction ts with
  | nil => intro; rfl
  | cons t rest ih =>
    intro h
    by_cases h1 : (t.id == i) = true
    · simp [setCompleted, h1] at h
    · simp only [setCompleted, h1] at h ⊢
      simp [ih (by simpa using h)]

theorem assignTask_false (i w : String) (n : Nat) :
    ∀ ts : List TaskItem, (assignTask i w n ts).1 = false →
      (assignTask i w n ts).2 = ts := by
  intro ts
  induction ts with
  | nil => intro; rfl
  | cons t rest ih =>
    intro h
    by_cases h1 : (t.id == i) = true
    · by_cases h2 : (t.status == TaskStatus.pending) = true
      · simp [assignTask, h1, h2] at h
      · simp [assignTask, h1, h2]
    · simp only [assignTask, h1] at h ⊢
      simp at h
      simp [ih h]

theorem claimAux_none (full : List TaskItem) (w : String) (n : Nat) :
    ∀ ts : List TaskItem, (claimAux full w n ts).1 = none →
      (claimAux full w n ts).2 = ts := by
  intro ts
  induction ts with
  | nil => intro; rfl
  | cons t rest ih =>
    intro h
    by_cases h1 : (t.status == TaskStatus.pending && isUnblocked full t) = true
    · simp [claimAux, h1] at h
    · simp only [claimAux, h1] at h ⊢
      simp at h
      simp [ih h]

/-! ## Claim C1 -/

/-- The status-transition relation asserted by claim C1 / the spec
sentence "Legal transitions only: blocked→pending (all blockers
completed), pending→in_progress (claim/assign),
in_progress→completed." -/
def specLegalChange (old new : TaskStatus) : Prop :=
  (old = .blocked ∧ new = .pending) ∨
    (old = .pending ∧ new = .in_progress) ∨
    (old = .in_progress ∧ new = .completed)

instance (old new : TaskStatus) : Decidable (specLegalChange old new) := by
  unfold specLegalChange; infer_instance

/-- C1 (amended): for every `TaskList` state and every single operation
(`addTask`, `assignTask`, `claimNextTask`, `completeTask`; a sequence of
operations changes status only inside its individual steps), every
status change of a task entry is blocked→pending — performed only when
all of the task's blockers are completed, witnessed in the resulting
state — or pending→in_progress (claim/assign), or a change **to**
`completed`: `completeTask` sets `completed` without checking that the
prior status is `in_progress`, so the original claim's restriction
"never ... from a status other than in_progress" had to be dropped
(refuted at `claimC1_counterexample`). -/
theorem claimC1_transitions (ts : List TaskItem) (op : TaskOp) (j : Nat)
    (old new : TaskItem) (hold : ts[j]? = some old)
    (hnew : (applyOp ts op)[j]? = some new) :
    new.id = old.id ∧
      (new.status = old.status ∨
        (old.status = .blocked ∧ new.status = .pending ∧
          isUnblocked (applyOp ts op) new = true) ∨
        (old.status = .pending ∧ new.status = .in_progress) ∨
        new.status = .completed) := by
  cases op with
  | add f t d b n =>
    have hj : j < ts.length := (List.getElem?_eq_some_iff.1 hold).1
    have heq : (applyOp ts (TaskOp.add f t d b n))[j]? = ts[j]? := by
      simp [applyOp, addTask, List.getElem?_append, hj]
    rw [heq, hold] at hnew
    obtain rfl : old = new := Option.some.inj hnew
    exact ⟨rfl, Or.inl rfl⟩
  | assign i w n =>
    have h := assignTask_entry i w n ts j old new hold hnew
    rcases h with rfl | ⟨hp, rfl⟩
    · exact ⟨rfl, Or.inl rfl⟩
    · exact ⟨rfl, Or.inr (Or.inr (Or.inl ⟨hp, rfl⟩))⟩
  | claim w n =>
    have h := claimAux_entry ts w n ts j old new hold hnew
    rcases h with rfl | ⟨hp, rfl⟩
    · exact ⟨rfl, Or.inl rfl⟩
    · exact ⟨rfl, Or.inr (Or.inr (Or.inl ⟨hp, rfl⟩))⟩
  | complete i r n =>
    by_cases hok : (setCompleted i r n ts).1 = true
    · have hfin : applyOp ts (TaskOp.complete i r n)
          = updateBlockedTasks (setCompleted i r n ts).2 n := by
        simp [applyOp, completeTask, hok]
      rw [hfin] at hnew
      have hj : j < ts.length := (List.getElem?_eq_some_iff.1 hold).1
      have hjm : j < ((setCompleted i r n ts).2).length := by
        rw [setCompleted_length]; exact hj
      obtain ⟨mid, hmid⟩ : ∃ mid, ((setCompleted i r n ts).2)[j]? = some mid :=
        ⟨_, List.getElem?_eq_getElem hjm⟩
      have hnew' : new = promoteView ((setCompleted i r n ts).2) n mid :=
        updateBlockedTasks_entry _ n j mid new hmid hnew
      have hmidcase := setCompleted_entry i r n ts j old mid hold hmid
      by_cases hpv : (mid.status == TaskStatus.blocked
          && isUnblocked ((setCompleted i r n ts).2) mid) = true
      · have hnew2 : new = { mid with status := .pending, updatedAt := n } := by
          rw [hnew']; simp [promoteView, hpv]
        have hmidb : mid.status = .blocked := by
          simpa using Bool.and_elim_left hpv
        have hunb : isUnblocked ((setCompleted i r n ts).2) mid = true :=
          Bool.and_elim_right hpv
        rcases hmidcase with rfl | hcomp
        · refine ⟨by rw [hnew2], Or.inr (Or.inl ⟨hmidb, by rw [hnew2], ?_⟩)⟩
          rw [hfin, isUnblocked_updateBlockedTasks]
          rw [isUnblocked_blockedBy_congr _ (show new.blockedBy = mid.blockedBy by
            rw [hnew2])]
          exact hunb
        · rw [hcomp] at hmidb
          simp at hmidb
      · have hnew2 : new = mid := by rw [hnew']; simp [promoteView, hpv]
        rcases hmidcase with rfl | hcomp
        · exact ⟨by rw [hnew2], Or.inl (by rw [hnew2])⟩
        · refine ⟨?_, Or.inr (Or.inr (Or.inr ?_))⟩
          · rw [hnew2, hcomp]
          · rw [hnew2, hcomp]
    · have hfin : applyOp ts (TaskOp.complete i r n) = (setCompleted i r n ts).2 := by
        simp [applyOp, completeTask, hok]
      rw [hfin, setCompleted_false i r n ts (by simpa using hok), hold] at hnew
      obtain rfl : old = new := Option.some.inj hnew
      exact ⟨rfl, Or.inl rfl⟩

/-- The task created in C1's counterexample scenario. -/
def c1old : TaskItem :=
  { id := "a", title := "T", description := "d", status := .pending,
    assignee := none, blockedBy := [], result := none, createdAt := 0, updatedAt := 0 }

/-- The same task after `completeTask`. -/
def c1new : TaskItem := { c1old with status := .completed, updatedAt := 1 }

/-- C1 counterexample: `completeTask` on a task that is still `pending`
(added with no blockers and never claimed or assigned) moves it straight
to `completed` — a status change outside the claim's list of legal
transitions, contradicting "completeTask never moves a task to completed
from a status other than in_progress". -/
theorem claimC1_counterexample :
    ((addTask [] "a" "T" "d" [] 0).2)[0]? = some c1old ∧
      (applyOp (addTask [] "a" "T" "d" [] 0).2 (TaskOp.complete "a" none 1))[0]?
        = some c1new ∧
      c1old.status = .pending ∧ c1new.status = .completed ∧
      ¬ specLegalChange c1old.status c1new.status := by
  decide

/-- Witness instantiating `claimC1_transitions` on the counterexample
scenario. -/
theorem claimC1_witness :
    c1new.id = c1old.id ∧
      (c1new.status = c1old.status ∨
        (c1old.status = .blocked ∧ c1new.status = .pending ∧
          isUnblocked (applyOp (addTask [] "a" "T" "d" [] 0).2
            (TaskOp.complete "a" none 1)) c1new = true) ∨
        (c1old.status = .pending ∧ c1new.status = .in_progress) ∨
        c1new.status = .completed) :=
  claimC1_transitions (addTask [] "a" "T" "d" [] 0).2 (TaskOp.complete "a" none 1)
    0 c1old c1new (by decide) (by decide)

/-! ## Claim C2 -/

theorem claimAux_none_sound (full : List TaskItem) (w : String) (n : Nat) :
    ∀ ts : List TaskItem, (claimAux full w n ts).1 = none →
      ∀ t ∈ ts, ¬(t.status = .pending ∧ isUnblocked full t = true) := by
  intro ts
  induction ts with
  | nil => intro _ t ht; simp at ht
  | cons t rest ih =>
    intro h u hu
    by_cases h1 : (t.status == TaskStatus.pending && isUnblocked full t) = true
    · simp [claimAux, h1] at h
    · simp only [claimAux, h1] at h
      rcases List.mem_cons.1 hu with rfl | hu'
      · intro ⟨hp, hb⟩
        simp [hp, hb] at h1
      · exact ih (by simpa using h) u hu'

theorem claimAux_some (full : List TaskItem) (w : String) (n : Nat) :
    ∀ (ts : List TaskItem) (c : TaskItem), (claimAux full w n ts).1 = some c →
      ∃ j t₀, ts[j]? = some t₀ ∧
        (∀ i u, i < j → ts[i]? = some u →
          ¬(u.status = .pending ∧ isUnblocked full u = true)) ∧
        t₀.status = .pending ∧ isUnblocked full t₀ = true ∧
        c = { t₀ with assignee := some w, status := .in_progress, updatedAt := n } ∧
        (claimAux full w n ts).2 = ts.set j c := by
  intro ts
  induction ts with
  | nil => intro c h; simp [claimAux] at h
  | cons t rest ih =>
    intro c h
    by_cases h1 : (t.status == TaskStatus.pending && isUnblocked full t) = true
    · have hred : claimAux full w n (t :: rest) = (some { t with assignee := some w, status := .in_progress, updatedAt := n }, { t with assignee := some w, status := .in_progress, updatedAt := n } :: rest) := by
        simp [claimAux, h1]
      rw [hred] at h
      obtain rfl := (Option.some.inj h)
      refine ⟨0, t, by simp, by omega, ?_, Bool.and_elim_right h1, rfl, ?_⟩
      · simpa using Bool.and_elim_left h1
      · rw [hred]
        simp
    · have hred : claimAux full w n (t :: rest)
          = ((claimAux full w n rest).1, t :: (claimAux full w n rest).2) := by
        simp [claimAux, h1]
      rw [hred] at h
      obtain ⟨j, t₀, hj, hbefore, hp, hb, hc, hset⟩ := ih c h
      refine ⟨j + 1, t₀, by simpa using hj, ?_, hp, hb, hc, ?_⟩
      · intro i u hi hu
        cases i with
        | zero =>
          obtain rfl : t = u := Option.some.inj (by simpa using hu)
          intro ⟨hup, hub⟩
          simp [hup, hub] at h1
        | succ k =>
          exact hbefore k u (by omega) (by simpa using hu)
      · rw [hred]
        simp [hset, List.set_cons_succ]

theorem isUnblocked_spec (ts : List TaskItem) (t : TaskItem)
    (h : isUnblocked ts t = true) :
    ∀ d ∈ t.blockedBy, ∃ u, ts.find? (fun x => x.id == d) = some u ∧
      u.status = .completed := by
  intro d hd
  unfold isUnblocked at h
  by_cases hb : (t.blockedBy.length == 0) = true
  · have hnil : t.blockedBy = [] := List.length_eq_zero.1 (by simpa using hb)
    rw [hnil] at hd
    simp at hd
  · rw [if_neg hb] at h
    have hall := List.all_eq_true.1 h d hd
    unfold depCompleted at hall
    cases hfind : ts.find? (fun x => x.id == d) with
    | none => rw [hfind] at hall; simp at hall
    | some u =>
      rw [hfind] at hall
      exact ⟨u, rfl, by simpa using hall⟩

theorem setCompleted_entry_ne (i : String) (r : Option String) (n : Nat) :
    ∀ (ts : List TaskItem) (j : Nat) (old : TaskItem), ts[j]? = some old →
      old.id ≠ i → ((setCompleted i r n ts).2)[j]? = some old := by
  intro ts
  induction ts with
  | nil => intro j old h; simp at h
  | cons t rest ih =>
    intro j old h hne
    by_cases h1 : (t.id == i) = true
    · cases j with
      | zero =>
        obtain rfl : t = old := Option.some.inj (by simpa using h)
        exact absurd (by simpa using h1) hne
      | succ k => simpa [setCompleted, h1] using h
    · cases j with
      | zero => simpa [setCompleted, h1] using h
      | succ k =>
        have := ih k old (by simpa using h) hne
        simpa [setCompleted, h1] using this

/-- C2: (a) `claimNextTask` returns `none` — leaving the list unchanged —
exactly when no task is pending with all blockers completed; (b) a
returned task is the first (in creation order) pending task whose
blockers are all completed, it is marked `in_progress` with the given
assignee, every id in its `blockedBy` resolves to a `completed` task, and
only that entry changes; (c) after a successful `completeTask`, a task
that was `blocked` (and is not itself the completion target) whose
blockers are now all completed has become `pending`, i.e. it is eligible
immediately. -/
theorem claimC2_claimNextTask :
    (∀ (ts : List TaskItem) (w : String) (n : Nat),
      ((claimNextTask ts w n).1 = none →
        (claimNextTask ts w n).2 = ts ∧
          ∀ t ∈ ts, ¬(t.status = .pending ∧ isUnblocked ts t = true)) ∧
      (∀ c, (claimNextTask ts w n).1 = some c →
        ∃ j t₀, ts[j]? = some t₀ ∧
          (∀ i u, i < j → ts[i]? = some u →
            ¬(u.status = .pending ∧ isUnblocked ts u = true)) ∧
          t₀.status = .pending ∧ isUnblocked ts t₀ = true ∧
          c = { t₀ with assignee := some w, status := .in_progress,
                        updatedAt := n } ∧
          (claimNextTask ts w n).2 = ts.set j c ∧
          ∀ d ∈ c.blockedBy, ∃ u, ts.find? (fun x => x.id == d) = some u ∧
            u.status = .completed)) ∧
    (∀ (ts : List TaskItem) (i : String) (r : Option String) (n j : Nat)
        (t₀ new : TaskItem), ts[j]? = some t₀ → t₀.status = .blocked →
        t₀.id ≠ i → (setCompleted i r n ts).1 = true →
        ((completeTask ts i r n).2)[j]? = some new →
        isUnblocked ((completeTask ts i r n).2) new = true →
        new.status = .pending) := by
  constructor
  · intro ts w n
    constructor
    · intro h
      exact ⟨claimAux_none ts w n ts h, claimAux_none_sound ts w n ts h⟩
    · intro c h
      obtain ⟨j, t₀, hj, hbefore, hp, hb, hc, hset⟩ := claimAux_some ts w n ts c h
      refine ⟨j, t₀, hj, hbefore, hp, hb, hc, hset, ?_⟩
      have hbb : c.blockedBy = t₀.blockedBy := by rw [hc]
      rw [hbb]
      exact isUnblocked_spec ts t₀ hb
  · intro ts i r n j t₀ new hj hblocked hne hok hnew hunb
    have hfin : (completeTask ts i r n).2
        = updateBlockedTasks (setCompleted i r n ts).2 n := by
      simp [completeTask, hok]
    rw [hfin] at hnew
    have hmid : ((setCompleted i r n ts).2)[j]? = some t₀ :=
      setCompleted_entry_ne i r n ts j t₀ hj hne
    have hnew' : new = promoteView ((setCompleted i r n ts).2) n t₀ :=
      updateBlockedTasks_entry _ n j t₀ new hmid hnew
    have hunb₁ : isUnblocked ((setCompleted i r n ts).2) new = true := by
      rw [hfin, isUnblocked_updateBlockedTasks] at hunb
      exact hunb
    have hbbnew : new.blockedBy = t₀.blockedBy := by
      rw [hnew']
      unfold promoteView
      split <;> rfl
    have hunbt₀ : isUnblocked ((setCompleted i r n ts).2) t₀ = true := by
      rw [← isUnblocked_blockedBy_congr _ hbbnew]
      exact hunb₁
    rw [hnew']
    simp [promoteView, hblocked, hunbt₀]

/-- The two-task scenario of spec §8 used as C2's witness: task "A" is
already completed, task "B" is pending and blocked only by "A". -/
def c2tA : TaskItem :=
  { id := "A", title := "Write tests", description := "", status := .completed,
    assignee := none, blockedBy := [], result := none, createdAt := 0, updatedAt := 0 }

/-- Second task of C2's witness scenario. -/
def c2tB : TaskItem :=
  { id := "B", title := "Deploy", description := "", status := .pending,
    assignee := none, blockedBy := ["A"], result := none, createdAt := 1, updatedAt := 1 }

/-- The task C2's witness expects `claimNextTask` to return. -/
def c2claimed : TaskItem :=
  { c2tB with assignee := some "bob", status := .in_progress, updatedAt := 2 }

/-- Witness instantiating `claimC2_claimNextTask` (the some-case) on the
scenario `[c2tA, c2tB]` with assignee "bob": the claimed task is "B". -/
theorem claimC2_witness :
    ∃ j t₀, ([c2tA, c2tB])[j]? = some t₀ ∧
      (∀ i u, i < j → ([c2tA, c2tB])[i]? = some u →
        ¬(u.status = .pending ∧ isUnblocked [c2tA, c2tB] u = true)) ∧
      t₀.status = .pending ∧ isUnblocked [c2tA, c2tB] t₀ = true ∧
      c2claimed = { t₀ with assignee := some "bob", status := .in_progress,
                            updatedAt := 2 } ∧
      (claimNextTask [c2tA, c2tB] "bob" 2).2 = ([c2tA, c2tB]).set j c2claimed ∧
      ∀ d ∈ c2claimed.blockedBy,
        ∃ u, ([c2tA, c2tB]).find? (fun x => x.id == d) = some u ∧
          u.status = .completed := by
  obtain ⟨j, t₀, h1, h2, h3, h4, h5, h6, h7⟩ :=
    (claimC2_claimNextTask.1 [c2tA, c2tB] "bob" 2).2 c2claimed (by decide)
  exact ⟨j, t₀, h1, h2, h3, h4, h5, by rw [h6, h5], h7⟩

/-! ## Claim C9 -/

theorem assignTask_true (i w : String) (n : Nat) :
    ∀ ts : List TaskItem, (assignTask i w n ts).1 = true →
      ∃ pre t post, ts = pre ++ t :: post ∧ t.id = i ∧ t.status = .pending ∧
        (assignTask i w n ts).2 = pre ++ ({ t with assignee := some w, status := .in_progress, updatedAt := n } :: post) := by
  intro ts
  induction ts with
  | nil => intro h; simp [assignTask] at h
  | cons t rest ih =>
    intro h
    by_cases h1 : (t.id == i) = true
    · by_cases h2 : (t.status == TaskStatus.pending) = true
      · exact ⟨[], t, rest, rfl, by simpa using h1, by simpa using h2,
          by simp [assignTask, h1, h2]⟩
      · simp [assignTask, h1, h2] at h
    · have hred : assignTask i w n (t :: rest)
          = ((assignTask i w n rest).1, t :: (assignTask i w n rest).2) := by
        simp [assignTask, h1]
      rw [hred] at h
      obtain ⟨pre, u, post, hts, hid, hp, hres⟩ := ih h
      refine ⟨t :: pre, u, post, by rw [hts]; rfl, hid, hp, ?_⟩
      rw [hred]
      simp [hres]

theorem assignTask_complete (i w : String) (n : Nat) :
    ∀ ts : List TaskItem, (ts.map TaskItem.id).Nodup →
      (∃ t ∈ ts, t.id = i ∧ t.status = .pending) →
      (assignTask i w n ts).1 = true := by
  intro ts
  induction ts with
  | nil =>
    intro _ h
    obtain ⟨t, ht, _⟩ := h
    simp at ht
  | cons t rest ih =>
    intro hnd h
    obtain ⟨u, hu, hid, hp⟩ := h
    have hnd' : t.id ∉ List.map TaskItem.id rest ∧
        (List.map TaskItem.id rest).Nodup := by
      have hx := hnd
      rw [List.map_cons, List.nodup_cons] at hx
      exact hx
    by_cases h1 : (t.id == i) = true
    · by_cases h2 : (t.status == TaskStatus.pending) = true
      · simp [assignTask, h1, h2]
      · rcases List.mem_cons.1 hu with rfl | hu'
        · simp [hp] at h2
        · exfalso
          apply hnd'.1
          rw [show t.id = i from by simpa using h1, ← hid]
          exact List.mem_map_of_mem _ hu'
    · rcases List.mem_cons.1 hu with rfl | hu'
      · simp [hid] at h1
      · have hred : assignTask i w n (t :: rest)
            = ((assignTask i w n rest).1, t :: (assignTask i w n rest).2) := by
          simp [assignTask, h1]
        rw [hred]
        exact ih hnd'.2 ⟨u, hu', hid, hp⟩

/-- C9: over states with distinct task ids (all reachable `TaskList`
states, since ids come from uuid), `assignTask` returns `true` exactly
when a task with the given id exists and its status is exactly `pending`;
in that case only that task is rewritten, to `in_progress` with the given
assignee; otherwise it returns `false` and leaves every task unchanged.
The embedding is a total function, mirroring that the method throws no
exception. -/
theorem claimC9_assignTask (ts : List TaskItem) (i w : String) (n : Nat)
    (hnodup : (ts.map TaskItem.id).Nodup) :
    ((assignTask i w n ts).1 = true ↔
      ∃ t ∈ ts, t.id = i ∧ t.status = .pending) ∧
    ((assignTask i w n ts).1 = false → (assignTask i w n ts).2 = ts) ∧
    ((assignTask i w n ts).1 = true →
      ∃ pre t post, ts = pre ++ t :: post ∧ t.id = i ∧ t.status = .pending ∧
        (assignTask i w n ts).2 = pre ++ ({ t with assignee := some w, status := .in_progress, updatedAt := n } :: post)) := by
  refine ⟨⟨?_, assignTask_complete i w n ts hnodup⟩,
    assignTask_false i w n ts, assignTask_true i w n ts⟩
  intro h
  obtain ⟨pre, t, post, hts, hid, hp, _⟩ := assignTask_true i w n ts h
  exact ⟨t, by rw [hts]; simp, hid, hp⟩

/-- The single pending task of C9's witness scenario. -/
def c9task : TaskItem :=
  { id := "x", title := "T", description := "", status := .pending,
    assignee := none, blockedBy := [], result := none, createdAt := 0, updatedAt := 0 }

/-- Witness instantiating `claimC9_assignTask` on `[c9task]`. -/
theorem claimC9_witness :
    ((assignTask "x" "w" 5 [c9task]).1 = true ↔
      ∃ t ∈ [c9task], t.id = "x" ∧ t.status = .pending) ∧
    ((assignTask "x" "w" 5 [c9task]).1 = false →
      (assignTask "x" "w" 5 [c9task]).2 = [c9task]) ∧
    ((assignTask "x" "w" 5 [c9task]).1 = true →
      ∃ pre t post, [c9task] = pre ++ t :: post ∧ t.id = "x" ∧
        t.status = .pending ∧
        (assignTask "x" "w" 5 [c9task]).2 = pre ++ ({ t with assignee := some "w", status := .in_progress, updatedAt := 5 } :: post)) :=
  claimC9_assignTask [c9task] "x" "w" 5 (by decide)

/-! ## Claim C10 -/

/-- C10: (a) a task added with a non-empty `blockedBy` list starts
`blocked` — the statuses of the listed blockers are not consulted, so
this holds even when every blocker is already completed; (b) a task
returned by `claimNextTask` had status `pending` beforehand, so such a
blocked task is never returned; (c) `addTask`, `assignTask` and
`claimNextTask` never change a blocked task's status — promotion of
blocked tasks to `pending` happens only inside `completeTask`
(`updateBlockedTasks`). -/
theorem claimC10_blockedUntilComplete :
    (∀ (ts : List TaskItem) (f t d : String) (bb : List String) (n : Nat),
      bb ≠ [] → ((addTask ts f t d bb n).1).status = .blocked) ∧
    (∀ (ts : List TaskItem) (w : String) (n : Nat) (c : TaskItem),
      (claimNextTask ts w n).1 = some c →
      ∃ (j : Nat) (t₀ : TaskItem), ts[j]? = some t₀ ∧ t₀.status = .pending ∧
        c.id = t₀.id) ∧
    (∀ (ts : List TaskItem) (op : TaskOp) (j : Nat) (old new : TaskItem),
      (∀ i r n, op ≠ TaskOp.complete i r n) →
      ts[j]? = some old → (applyOp ts op)[j]? = some new →
      old.status = .blocked → new = old) := by
  refine ⟨?_, ?_, ?_⟩
  · intro ts f t d bb n hbb
    have hlen : 0 < bb.length := List.length_pos.2 hbb
    simp [addTask, hlen]
  · intro ts w n c h
    have h' : (claimAux ts w n ts).1 = some c := h
    obtain ⟨j, t₀, hj, _, hp, _, hc, _⟩ := claimAux_some ts w n ts c h'
    exact ⟨j, t₀, hj, hp, by rw [hc]⟩
  · intro ts op j old new hnc hold hnew hblocked
    cases op with
    | add f t d b n =>
      have hj : j < ts.length := (List.getElem?_eq_some_iff.1 hold).1
      have heq : (applyOp ts (TaskOp.add f t d b n))[j]? = ts[j]? := by
        simp [applyOp, addTask, List.getElem?_append, hj]
      rw [heq, hold] at hnew
      exact (Option.some.inj hnew).symm
    | assign i w n =>
      rcases assignTask_entry i w n ts j old new hold hnew with rfl | ⟨hp, _⟩
      · rfl
      · rw [hp] at hblocked; cases hblocked
    | claim w n =>
      rcases claimAux_entry ts w n ts j old new hold hnew with rfl | ⟨hp, _⟩
      · rfl
      · rw [hp] at hblocked; cases hblocked
    | complete i r n => exact absurd rfl (hnc i r n)

/-- The blocked task of C10's witness scenario. -/
def c10blocked : TaskItem :=
  { id := "B", title := "Deploy", description := "", status := .blocked,
    assignee := none, blockedBy := ["A"], result := none, createdAt := 0, updatedAt := 0 }

/-- Witness instantiating `claimC10_blockedUntilComplete`: a freshly added
task with one (nonexistent-yet-completed-irrelevant) blocker is blocked,
and a `claimNextTask` pass over `[c10blocked]` leaves the blocked task
unchanged. -/
theorem claimC10_witness :
    ((addTask [] "b" "T" "" ["A"] 0).1).status = .blocked ∧
    (applyOp [c10blocked] (TaskOp.claim "w" 3))[0]? = some c10blocked := by
  have h := claimC10_blockedUntilComplete
  refine ⟨h.1 [] "b" "T" "" ["A"] 0 (by decide), ?_⟩
  have hstep := h.2.2 [c10blocked] (TaskOp.claim "w" 3) 0 c10blocked
  have hsome : ∃ new, (applyOp [c10blocked] (TaskOp.claim "w" 3))[0]? = some new := by
    refine ⟨_, List.getElem?_eq_getElem ?_⟩
    have := applyOp_length [c10blocked] (TaskOp.claim "w" 3)
    simpa using Nat.lt_of_lt_of_le (by simp) this
  obtain ⟨new, hnew⟩ := hsome
  have := hstep new (fun i r n h => TaskOp.noConfusion h) (by simp) hnew (by decide)
  rw [hnew, this]

/-! ## Permissions (`src/permissions/permission-manager.ts`) -/

/-- `PermissionMode` from `permission-manager.ts`. -/
inductive PermissionMode
  | default
  | acceptEdits
  | plan
  | dontAsk
  | bypassPermissions
deriving DecidableEq

/-- The `type` field of a rule; the source union also admits `'ask'`,
which no code path constructs. -/
inductive RuleType
  | allow
  | ask
  | deny
deriving DecidableEq

/-- `PermissionRule` (rules are modelled post-`parseRule`: tool name plus
optional specifier). -/
structure PermissionRule where
  type : RuleType
  tool : String
  specifier : Option String
deriving DecidableEq

/-- The two fields of the untyped `Record<string, unknown>` tool-argument
object that `permission-manager.ts` inspects: `args?.command` and
`args?.file_path`. -/
structure ToolArgs where
  command : Option String
  filePath : Option String
deriving DecidableEq

/-- JS truthiness of an optional string: `undefined`/`null`/`""` are
falsy. -/
def strTruthy : Option String → Option String
  | some s => if s = "" then none else some s
  | none => none

/-- Glob matching for the anchored pattern
`'^' + pattern.replace(/\*[...]/g, '.*') + '$'` of
`PermissionManager.matchWildcard`: `*` matches any run of characters.
Regex metacharacters other than `*` occurring in a specifier are
modelled as literal characters. -/
def globMatch : List Char → List Char → Bool
  | [], [] => true
  | [], _ :: _ => false
  | '*' :: ps, [] => globMatch ps []
  | '*' :: ps, v :: vs => globMatch ps (v :: vs) || globMatch ('*' :: ps) vs
  | _ :: _, [] => false
  | p :: ps, v :: vs => p == v && globMatch ps vs
termination_by p v => (v.length, p.length)

/-- `PermissionManager.matchWildcard`. -/
def matchWildcard (pattern value : String) : Bool :=
  globMatch pattern.toList value.toList

/-- `PermissionManager.matchesRule`. -/
def matchesRule (rule : PermissionRule) (toolName : String)
    (args : Option ToolArgs) : Bool :=
  if rule.tool != toolName then false
  else
    match rule.specifier with
    | none => true
    | some spec =>
      if toolName == "Bash" then
        match strTruthy (args.bind (·.command)) with
        | some cmd => matchWildcard spec cmd
        | none => false
      else if toolName == "Read" || toolName == "Edit" || toolName == "Write" then
        match strTruthy (args.bind (·.filePath)) with
        | some fp => matchWildcard spec fp
        | none => false
      else false

/-- `PermissionManager.getToolKey`. -/
def getToolKey (toolName : String) (args : Option ToolArgs) : String :=
  if toolName == "Bash" then
    match strTruthy (args.bind (·.command)) with
    | some cmd => "Bash(" ++ ((cmd.splitOn " ").headD "") ++ ")"
    | none => toolName
  else toolName

/-- `PermissionManager.describeToolCall`; the default branch's
`JSON.stringify(args)` is abstracted to the two modelled fields (it is
unreachable from `check`, whose callers of `describeToolCall` pass only
Bash/Edit/MultiEdit/Write). -/
def describeToolCall (toolName : String) (args : Option ToolArgs) : String :=
  if toolName == "Bash" then
    "Execute: " ++ (match args.bind (·.command) with
      | some c => c.take 100
      | none => "unknown command")
  else if toolName == "Edit" || toolName == "MultiEdit" then
    "Edit file: " ++ (match args.bind (·.filePath) with
      | some f => f
      | none => "unknown")
  else if toolName == "Write" then
    "Create file: " ++ (match args.bind (·.filePath) with
      | some f => f
      | none => "unknown")
  else
    toolName ++ " with args: " ++ (match args.bind (·.command) with
      | some c => c.take 100
      | none => "")

/-- `WRITE_TOOLS` from `permission-manager.ts`. -/
def WRITE_TOOLS : List String := ["Write", "Edit", "MultiEdit", "Bash"]

/-- `READ_TOOLS` from `permission-manager.ts`. -/
def READ_TOOLS : List String := ["Read", "Grep", "Glob", "ListDir", "AskUser"]

/-- `PermissionResult` (`src/tools/types.ts`): `{allowed:true}`,
`{allowed:false, reason}` or `{needsApproval:true, description}`. -/
inductive PermissionResult
  | allowed
  | denied (reason : String)
  | needsApproval (description : String)
deriving DecidableEq

/-- The mutable state of a `PermissionManager`: its rule list (in
registration order: constructor-supplied rules followed by
`addAllowRule`/`addDenyRule` appends), mode, and session-allowed set. -/
structure PermissionManager where
  rules : List PermissionRule
  mode : PermissionMode
  sessionAllowed : List String
deriving DecidableEq

/-- `PermissionManager.check`: bypass mode first, then the first matching
deny rule, then the first matching allow rule, then session allows, then
the read-tool class, then the mode default. -/
def check (m : PermissionManager) (toolName : String) (args : Option ToolArgs) :
    PermissionResult :=
  if m.mode = .bypassPermissions then .allowed
  else
    match m.rules.find? (fun r => r.type == .deny && matchesRule r toolName args) with
    | some r =>
      .denied ("Denied by rule: " ++ r.tool ++ "(" ++ r.specifier.getD "*" ++ ")")
    | none =>
      match m.rules.find? (fun r => r.type == .allow && matchesRule r toolName args) with
      | some _ => .allowed
      | none =>
        if m.sessionAllowed.contains toolName
            || m.sessionAllowed.contains (getToolKey toolName args) then .allowed
        else if READ_TOOLS.contains toolName then .allowed
        else
          match m.mode with
          | .dontAsk => .allowed
          | .acceptEdits =>
            if toolName == "Edit" || toolName == "MultiEdit" || toolName == "Write" then
              .allowed
            else if toolName == "Bash" then
              .needsApproval (describeToolCall toolName args)
            else .allowed
          | .plan =>
            if WRITE_TOOLS.contains toolName then
              .denied "Plan mode: write operations are not allowed"
            else .allowed
          | _ =>
            if WRITE_TOOLS.contains toolName then
              .needsApproval (describeToolCall toolName args)
            else .allowed

/-! ## Claim C3 -/

/-- C3 (amended): whenever the manager's mode is not `bypassPermissions`,
a deny rule matching the call anywhere in the rule list makes `check`
return deny — in particular a rule set containing both a matching allow
rule and a matching deny rule resolves to deny in every registration
order.  In `bypassPermissions` mode every call is allowed before any rule
is consulted (`claimC3_counterexample`), which the original claim's
unrestricted quantification overlooked. -/
theorem claimC3_denyPrecedence (m : PermissionManager) (toolName : String)
    (args : Option ToolArgs) (hmode : m.mode ≠ .bypassPermissions)
    (hdeny : ∃ r ∈ m.rules, r.type = .deny ∧ matchesRule r toolName args = true) :
    ∃ reason, check m toolName args = .denied reason := by
  unfold check
  rw [if_neg hmode]
  obtain ⟨r, hr, htype, hmatch⟩ := hdeny
  have hsome : (m.rules.find?
      (fun r => r.type == .deny && matchesRule r toolName args)).isSome := by
    rw [List.find?_isSome]
    exact ⟨r, hr, by simp [htype, hmatch]⟩
  obtain ⟨r', hfind⟩ := Option.isSome_iff_exists.1 hsome
  rw [hfind]
  exact ⟨_, rfl⟩

/-- The allow rule of C3's scenarios. -/
def c3allow : PermissionRule := { type := .allow, tool := "Bash", specifier := none }

/-- The deny rule of C3's scenarios. -/
def c3deny : PermissionRule := { type := .deny, tool := "Bash", specifier := none }

/-- A manager in `bypassPermissions` mode holding both rules. -/
def c3mgrBypass : PermissionManager :=
  { rules := [c3allow, c3deny], mode := .bypassPermissions, sessionAllowed := [] }

/-- C3 counterexample: in `bypassPermissions` mode, `check` returns
allowed even though a deny rule (and an allow rule) matching the call is
registered, so the claim's unrestricted "always resolves to deny" fails. -/
theorem claimC3_counterexample :
    matchesRule c3deny "Bash" none = true ∧
      matchesRule c3allow "Bash" none = true ∧
      c3deny ∈ c3mgrBypass.rules ∧ c3allow ∈ c3mgrBypass.rules ∧
      check c3mgrBypass "Bash" none = .allowed := by
  decide

/-- A manager in the default mode holding the allow rule before the deny
rule (the adversarial registration order). -/
def c3mgrDefault : PermissionManager :=
  { rules := [c3allow, c3deny], mode := .default, sessionAllowed := [] }

/-- Witness instantiating `claimC3_denyPrecedence` on `c3mgrDefault`. -/
theorem claimC3_witness :
    ∃ reason, check c3mgrDefault "Bash" none = .denied reason :=
  claimC3_denyPrecedence c3mgrDefault "Bash" none (by decide)
    ⟨c3deny, by decide, by decide, by decide⟩

/-! ## Tools and the dispatcher (`src/core/tool-registry.ts`,
`src/core/tool-executor.ts`) -/

/-- `ToolResult` (`src/tools/types.ts`). -/
structure ToolResult where
  success : Bool
  output : String
  error : Option String
deriving DecidableEq

/-- `LLMToolCall` (`src/llm/provider.ts`); the untyped `arguments` record
is restricted to the fields the modelled code inspects. -/
structure LLMToolCall where
  id : String
  name : String
  arguments : ToolArgs
deriving DecidableEq

/-- A tool as consumed by the dispatcher (`ToolDefinition`): its name and
its `execute` implementation, which may throw (`Except.error` carries the
exception message `error instanceof Error ? error.message : String(error)`). -/
structure Tool where
  name : String
  run : ToolArgs → Except String ToolResult

/-- `ToolRegistry`: a JS `Map` from tool names to tools, modelled as an
association list in insertion order with unique keys. -/
structure ToolRegistry where
  tools : List (String × Tool)

/-- `ToolRegistry.get`. -/
def ToolRegistry.get (reg : ToolRegistry) (name : String) : Option Tool :=
  (reg.tools.find? (fun p => p.1 == name)).map (fun p => p.2)

/-- `ToolRegistry.names`. -/
def ToolRegistry.names (reg : ToolRegistry) : List String :=
  reg.tools.map (fun p => p.1)

/-- `ToolExecutionResult` (`tool-executor.ts`). -/
structure ToolExecutionResult where
  toolCallId : String
  toolName : String
  result : ToolResult
deriving DecidableEq

/-- The `try { await tool.execute(...) } catch` tail of
`ToolExecutor.execute`. -/
def runTool (tc : LLMToolCall) (tool : Tool) : ToolExecutionResult :=
  match tool.run tc.arguments with
  | .ok result => { toolCallId := tc.id, toolName := tc.name, result := result }
  | .error msg =>
    { toolCallId := tc.id, toolName := tc.name,
      result := { success := false, output := "", error := some msg } }

/-- `ToolExecutor.execute`; `askUser` is the context's human-in-the-loop
hook (modelled total), and the executor carries no hook manager, matching
how `AgentLoop` constructs it. -/
def executeTool (reg : ToolRegistry) (perm : PermissionManager)
    (askUser : String → String) (tc : LLMToolCall) : ToolExecutionResult :=
  match reg.get tc.name with
  | none =>
    { toolCallId := tc.id, toolName := tc.name,
      result := { success := false, output := "",
                  error := some ("Unknown tool: " ++ tc.name ++ ". Available tools: "
                    ++ String.intercalate ", " reg.names) } }
  | some tool =>
    match check perm tc.name (some tc.arguments) with
    | .denied reason =>
      { toolCallId := tc.id, toolName := tc.name,
        result := { success := false, output := "",
                    error := some ("Permission denied for tool \"" ++ tc.name
                      ++ "\": " ++ reason) } }
    | .needsApproval desc =>
      let answer := (askUser ("Allow " ++ tc.name ++ "? " ++ desc ++ " (y/n)")).toLower
      if answer == "y" || answer == "yes" then runTool tc tool
      else
        { toolCallId := tc.id, toolName := tc.name,
          result := { success := false, output := "",
                      error := some ("User denied permission for tool \""
                        ++ tc.name ++ "\"") } }
    | .allowed => runTool tc tool

theorem len_pos_append_left (a b : String) (h : 0 < a.length) :
    0 < (a ++ b).length := by
  rw [String.length_append]
  omega

theorem ne_empty_of_len_pos (s : String) (h : 0 < s.length) : s ≠ "" := by
  intro hs
  rw [hs] at h
  simp at h

/-! ## Claim C4 -/

/-- C4 (amended): `executeTool` is a total function — every request gets
a `ToolExecutionResult` carrying the request's id and name (the
dispatcher never throws).  An unknown tool name, a permission denial and
a human refusal each yield `success = false` with a non-empty error
string; an exception thrown by the tool's execute yields
`success = false` with the thrown message as the error — non-empty only
when the thrown message is (`claimC4_counterexample` refutes the
original unconditional non-emptiness). -/
theorem claimC4_executeTotal (reg : ToolRegistry) (perm : PermissionManager)
    (ask : String → String) (tc : LLMToolCall) :
    ((executeTool reg perm ask tc).toolCallId = tc.id ∧
      (executeTool reg perm ask tc).toolName = tc.name) ∧
    (reg.get tc.name = none →
      (executeTool reg perm ask tc).result.success = false ∧
      ∃ s, (executeTool reg perm ask tc).result.error = some s ∧ s ≠ "") ∧
    (∀ reason, check perm tc.name (some tc.arguments) = .denied reason →
      reg.get tc.name ≠ none →
      (executeTool reg perm ask tc).result.success = false ∧
      ∃ s, (executeTool reg perm ask tc).result.error = some s ∧ s ≠ "") ∧
    (∀ desc, check perm tc.name (some tc.arguments) = .needsApproval desc →
      reg.get tc.name ≠ none →
      (ask ("Allow " ++ tc.name ++ "? " ++ desc ++ " (y/n)")).toLower ≠ "y" →
      (ask ("Allow " ++ tc.name ++ "? " ++ desc ++ " (y/n)")).toLower ≠ "yes" →
      (executeTool reg perm ask tc).result.success = false ∧
      ∃ s, (executeTool reg perm ask tc).result.error = some s ∧ s ≠ "") ∧
    (∀ tool msg, reg.get tc.name = some tool →
      check perm tc.name (some tc.arguments) = .allowed →
      tool.run tc.arguments = .error msg →
      (executeTool reg perm ask tc).result
        = { success := false, output := "", error := some msg }) ∧
    (∀ tool msg desc, reg.get tc.name = some tool →
      check perm tc.name (some tc.arguments) = .needsApproval desc →
      ((ask ("Allow " ++ tc.name ++ "? " ++ desc ++ " (y/n)")).toLower = "y" ∨
        (ask ("Allow " ++ tc.name ++ "? " ++ desc ++ " (y/n)")).toLower = "yes") →
      tool.run tc.arguments = .error msg →
      (executeTool reg perm ask tc).result
        = { success := false, output := "", error := some msg }) := by
  refine ⟨?_, ?_, ?_, ?_, ?_, ?_⟩
  · cases hget : reg.get tc.name with
    | none => simp [executeTool, hget]
    | some tool =>
      cases hchk : check perm tc.name (some tc.arguments) with
      | allowed =>
        cases hrun : tool.run tc.arguments <;>
          simp [executeTool, runTool, hget, hchk, hrun]
      | denied reason => simp [executeTool, hget, hchk]
      | needsApproval desc =>
        by_cases hans : ((ask ("Allow " ++ tc.name ++ "? " ++ desc
            ++ " (y/n)")).toLower == "y"
            || (ask ("Allow " ++ tc.name ++ "? " ++ desc
              ++ " (y/n)")).toLower == "yes") = true
        · cases hrun : tool.run tc.arguments <;>
            simp [executeTool, runTool, hget, hchk, hans, hrun]
        · simp [executeTool, runTool, hget, hchk, hans]
  · intro hget
    have he : executeTool reg perm ask tc
        = { toolCallId := tc.id, toolName := tc.name,
            result := { success := false, output := "",
                        error := some ("Unknown tool: " ++ tc.name
                          ++ ". Available tools: "
                          ++ String.intercalate ", " reg.names) } } := by
      simp [executeTool, hget]
    rw [he]
    refine ⟨rfl, _, rfl, ?_⟩
    exact ne_empty_of_len_pos _ (len_pos_append_left _ _
      (len_pos_append_left _ _ (len_pos_append_left _ _ (by decide))))
  · intro reason hchk hget
    cases hg : reg.get tc.name with
    | none => exact absurd hg hget
    | some tool =>
      have he : executeTool reg perm ask tc
          = { toolCallId := tc.id, toolName := tc.name,
              result := { success := false, output := "",
                          error := some ("Permission denied for tool \""
                            ++ tc.name ++ "\": " ++ reason) } } := by
        simp [executeTool, hg, hchk]
      rw [he]
      refine ⟨rfl, _, rfl, ?_⟩
      exact ne_empty_of_len_pos _ (len_pos_append_left _ _
        (len_pos_append_left _ _ (len_pos_append_left _ _ (by decide))))
  · intro desc hchk hget hy hyes
    cases hg : reg.get tc.name with
    | none => exact absurd hg hget
    | some tool =>
      have hans : ((ask ("Allow " ++ tc.name ++ "? " ++ desc
          ++ " (y/n)")).toLower == "y"
          || (ask ("Allow " ++ tc.name ++ "? " ++ desc
            ++ " (y/n)")).toLower == "yes") = false := by
        simp [hy, hyes]
      have he : executeTool reg perm ask tc
          = { toolCallId := tc.id, toolName := tc.name,
              result := { success := false, output := "",
                          error := some ("User denied permission for tool \""
                            ++ tc.name ++ "\"") } } := by
        simp [executeTool, hg, hchk, hans]
      rw [he]
      refine ⟨rfl, _, rfl, ?_⟩
      exact ne_empty_of_len_pos _ (len_pos_append_left _ _
        (len_pos_append_left _ _ (by decide)))
  · intro tool msg hget hchk hrun
    have he : executeTool reg perm ask tc = runTool tc tool := by
      simp [executeTool, hget, hchk]
    rw [he]
    simp [runTool, hrun]
  · intro tool msg desc hget hchk hans hrun
    have hanseq : ((ask ("Allow " ++ tc.name ++ "? " ++ desc
        ++ " (y/n)")).toLower == "y"
        || (ask ("Allow " ++ tc.name ++ "? " ++ desc
          ++ " (y/n)")).toLower == "yes") = true := by
      rcases hans with h | h <;> simp [h]
    have he : executeTool reg perm ask tc = runTool tc tool := by
      simp [executeTool, hget, hchk, hanseq]
    rw [he]
    simp [runTool, hrun]

/-- The tool of C4's counterexample: its execute throws an exception
whose message is the empty string (`throw new Error('')`). -/
def c4tool : Tool := { name := "T", run := fun _ => .error "" }

/-- Registry holding only `c4tool`. -/
def c4reg : ToolRegistry := { tools := [("T", c4tool)] }

/-- A manager in `dontAsk` mode with no rules: every call is allowed. -/
def c4mgr : PermissionManager := { rules := [], mode := .dontAsk, sessionAllowed := [] }

/-- The tool call of C4's counterexample. -/
def c4call : LLMToolCall := { id := "1", name := "T", arguments := ⟨none, none⟩ }

/-- C4 counterexample: a tool that throws an exception with an empty
message produces `{success := false, error := ""}` — the error field is
present but empty, refuting the claim's "non-empty error field" for the
exception case. -/
theorem claimC4_counterexample :
    (executeTool c4reg c4mgr (fun _ => "") c4call).result.success = false ∧
      (executeTool c4reg c4mgr (fun _ => "") c4call).result.error = some "" :=
  ⟨rfl, rfl⟩

/-- A request for a name absent from `c4reg`. -/
def c4miss : LLMToolCall := { id := "2", name := "Nope", arguments := ⟨none, none⟩ }

/-- Witness instantiating `claimC4_executeTotal`'s unknown-tool case on
`c4reg`. -/
theorem claimC4_witness :
    (executeTool c4reg c4mgr (fun _ => "") c4miss).result.success = false ∧
      ∃ s, (executeTool c4reg c4mgr (fun _ => "") c4miss).result.error = some s ∧
        s ≠ "" :=
  (claimC4_executeTotal c4reg c4mgr (fun _ => "") c4miss).2.1 rfl

/-! ## Conversation state (`src/core/context-manager.ts`,
`src/llm/token-counter.ts`, `src/core/message-builder.ts`) -/

/-- Message roles of `ChatCompletionMessageParam`. -/
inductive Role
  | system
  | user
  | assistant
  | tool
deriving DecidableEq

/-- The fields of `ChatCompletionMessageParam` this codebase reads and
writes: role, string-or-null content (`none` models JS `null`), the
assistant-authored `tool_calls` and the tool-authored `tool_call_id`. -/
structure ChatMessage where
  role : Role
  content : Option String
  toolCalls : List LLMToolCall := []
  toolCallId : Option String := none
deriving DecidableEq

/-- `estimateTokens` (`token-counter.ts`): `Math.ceil(text.length / 4)`. -/
def estimateTokens (text : String) : Nat := (text.length + 3) / 4

/-- Wire-format role strings. -/
def roleString : Role → String
  | .system => "system"
  | .user => "user"
  | .assistant => "assistant"
  | .tool => "tool"

/-- `estimateMessagesTokens` (`token-counter.ts`): 4 per message plus the
role and content estimates, plus 2 priming tokens; a null or empty
content contributes nothing (`if (msg.content)`). -/
def estimateMessagesTokens (messages : List ChatMessage) : Nat :=
  (messages.foldl (fun total m =>
    total + 4 + estimateTokens (roleString m.role) +
      (match strTruthy m.content with
       | some c => estimateTokens c
       | none => 0)) 0) + 2

/-- `ModelContextConfig` without the `compactThreshold` field: every entry
of `MODEL_CONFIGS` and the default carry threshold `0.8`, which
`needsCompaction` hard-codes below. -/
structure ModelContextConfig where
  name : String
  contextWindow : Nat
deriving DecidableEq

/-- `getModelConfig` (`token-counter.ts`). -/
def getModelConfig (model : String) : ModelContextConfig :=
  if model == "llama3.1:8b" || model == "llama3.1:70b" then
    { name := model, contextWindow := 131072 }
  else if model == "qwen3:8b" || model == "qwen3:14b" || model == "qwen3:32b"
      || model == "qwen2.5-coder:7b" || model == "mistral:7b" then
    { name := model, contextWindow := 32768 }
  else
    { name := "default", contextWindow := 32768 }

/-- `ContextManager.needsCompaction`: `tokens > contextWindow × 0.8`.
Every configured threshold is 0.8 and every context window a power of
two, so over the integer token estimates the float comparison coincides
with the exact rational one, written `5 × tokens > 4 × window`. -/
def needsCompaction (model : String) (messages : List ChatMessage) : Bool :=
  5 * estimateMessagesTokens messages > 4 * (getModelConfig model).contextWindow

/-- A tool schema as sent to the model; `ToolDefinition.toOpenAI` is
external, so only the name is modelled. -/
structure ToolSchema where
  name : String
deriving DecidableEq

/-- `ToolRegistry.toOpenAI`. -/
def ToolRegistry.toOpenAI (reg : ToolRegistry) : List ToolSchema :=
  reg.tools.map (fun p => { name := p.2.name })

/-- `LLMResponse` (`src/llm/provider.ts`), restricted to the fields the
agent loop and compaction read; `usage` is its `totalTokens`. -/
structure ChatResponse where
  content : Option String
  toolCalls : List LLMToolCall
  usage : Option Nat
deriving DecidableEq

/-- A Provider: one `chat(messages, tools?)` exchange; `Except.error`
models a thrown/rejected call.  Compaction calls it without a tool
catalog (`none`). -/
abbrev Provider := List ChatMessage → Option (List ToolSchema) → Except String ChatResponse

/-- The summarizer instruction of `ContextManager.compact`. -/
def summarizerPrompt : String :=
  "You are a conversation summarizer. Summarize the following conversation concisely, preserving all important technical details, decisions made, files modified, and current state. Be brief but complete."

/-- The bounded per-message preview sent to the summarizer:
`[role]: content.slice(0, 500)`; a JS-null content renders as
`JSON.stringify(null) = "null"`. -/
def messagePreview (m : ChatMessage) : String :=
  "[" ++ roleString m.role ++ "]: " ++
    (match m.content with
     | some c => c.take 500
     | none => "null")

/-- The synthetic user message holding the summary. -/
def summaryUserMessage (summary : String) : ChatMessage :=
  { role := .user, content := some ("[Previous conversation summary]: " ++ summary) }

/-- The synthetic assistant acknowledgment. -/
def ackMessage : ChatMessage :=
  { role := .assistant,
    content := some "I understand the context from our previous conversation. Let me continue from where we left off." }

/-- The two-message summarization request of `ContextManager.compact`. -/
def buildSummaryPrompt (middle : List ChatMessage) : List ChatMessage :=
  [{ role := .system, content := some summarizerPrompt },
   { role := .user,
     content := some (String.intercalate "\n" (middle.map messagePreview)) }]

/-- `ContextManager.compact`; the pair's second component counts the
Provider calls made (0 or 1).  Note the source locates the system message
with `find` over the whole history and, when one exists anywhere, always
starts the middle at index 1. -/
def compact (provider : Provider) (msgs : List ChatMessage) :
    List ChatMessage × Nat :=
  if msgs.length < 4 then (msgs, 0)
  else
    let systemMsg := msgs.find? (fun m => m.role == .system)
    let recent := msgs.drop (msgs.length - 4)
    let middle := (msgs.take (msgs.length - 4)).drop (if systemMsg.isSome then 1 else 0)
    if middle.isEmpty then (msgs, 0)
    else
      match provider (buildSummaryPrompt middle) none with
      | .ok resp =>
        (systemMsg.toList
          ++ [summaryUserMessage (resp.content.getD "Unable to summarize previous context.")]
          ++ [ackMessage] ++ recent, 1)
      | .error _ => (systemMsg.toList ++ recent, 1)

/-- The code's middle segment (what gets summarized). -/
def codeMiddle (msgs : List ChatMessage) : List ChatMessage :=
  (msgs.take (msgs.length - 4)).drop
    (if (msgs.find? (fun m => m.role == Role.system)).isSome then 1 else 0)

/-- The "middle" in claim C7's words: reserve the *leading* system
message (when the first message is one) and the last 4. -/
def specMiddle (msgs : List ChatMessage) : List ChatMessage :=
  (msgs.take (msgs.length - 4)).drop
    (if (msgs.head?.map (fun m => m.role)) = some Role.system then 1 else 0)

/-! ## Claims C6 and C7 -/

/-- C6 (amended): for a history of at least 4 messages whose middle —
taken from index 1 whenever a system message exists *anywhere* in the
history (the code locates it with `find`), else from index 0, up to the
last 4 — is non-empty, a succeeding summarization call rebuilds the
history as [the first system-role message if one exists anywhere, one
synthetic user message holding the summary, one synthetic assistant
acknowledgment, the last 4 original messages in their original order],
and a failing call as [first system message if any, last 4] with no
summary; exactly one Provider call is made either way.  The original
claim's "leading system message" is refuted by
`claimC6_counterexample`: a non-leading system message is hoisted to the
front and the middle still starts at index 1. -/
theorem claimC6_compactRebuild (provider : Provider) (msgs : List ChatMessage)
    (hlen : 4 ≤ msgs.length) (hmid : codeMiddle msgs ≠ []) :
    (∀ resp, provider (buildSummaryPrompt (codeMiddle msgs)) none = .ok resp →
      compact provider msgs
        = ((msgs.find? (fun m => m.role == Role.system)).toList
            ++ [summaryUserMessage
                (resp.content.getD "Unable to summarize previous context.")]
            ++ [ackMessage] ++ msgs.drop (msgs.length - 4), 1)) ∧
    (∀ e, provider (buildSummaryPrompt (codeMiddle msgs)) none = .error e →
      compact provider msgs
        = ((msgs.find? (fun m => m.role == Role.system)).toList
            ++ msgs.drop (msgs.length - 4), 1)) := by
  have hnotlt : ¬ msgs.length < 4 := by omega
  have hemp : ((msgs.take (msgs.length - 4)).drop
      (if (msgs.find? (fun m => m.role == Role.system)).isSome then 1 else 0)).isEmpty
      = false := by
    rw [List.isEmpty_eq_false]
    exact hmid
  constructor
  · intro resp hok
    unfold compact
    rw [if_neg hnotlt]
    simp only [hemp, Bool.false_eq_true, if_false]
    rw [show (msgs.take (msgs.length - 4)).drop
        (if (msgs.find? (fun m => m.role == Role.system)).isSome then 1 else 0)
        = codeMiddle msgs from rfl, hok]
  · intro e herr
    unfold compact
    rw [if_neg hnotlt]
    simp only [hemp, Bool.false_eq_true, if_false]
    rw [show (msgs.take (msgs.length - 4)).drop
        (if (msgs.find? (fun m => m.role == Role.system)).isSome then 1 else 0)
        = codeMiddle msgs from rfl, herr]

/-- C7: a history of at most 3 messages, or one whose middle (reserving
the leading system message and the last 4) is empty, is left unchanged
by `compact`, and no Provider call is made. -/
theorem claimC7_compactNoop (provider : Provider) (msgs : List ChatMessage)
    (h : msgs.length ≤ 3 ∨ specMiddle msgs = []) :
    compact provider msgs = (msgs, 0) := by
  by_cases hlen : msgs.length < 4
  · unfold compact
    rw [if_pos hlen]
  · rcases h with h | h
    · exact absurd (by omega) hlen
    · have hspec : (msgs.take (msgs.length - 4)).length ≤
          (if (msgs.head?.map (fun m => m.role)) = some Role.system then 1 else 0) := by
        rw [← List.drop_eq_nil_iff]
        exact h
      have hstart :
          (if (msgs.head?.map (fun m => m.role)) = some Role.system then 1 else 0)
          ≤ (if (msgs.find? (fun m => m.role == Role.system)).isSome then 1 else 0) := by
        by_cases hh : (msgs.head?.map (fun m => m.role)) = some Role.system
        · rw [if_pos hh]
          have hsome : (msgs.find? (fun m => m.role == Role.system)).isSome := by
            cases msgs with
            | nil => simp at hh
            | cons m rest =>
              have hm : m.role = Role.system := by simpa using hh
              simp [List.find?_cons, hm]
          rw [if_pos hsome]
        · rw [if_neg hh]
          omega
      have hcode : ((msgs.take (msgs.length - 4)).drop
          (if (msgs.find? (fun m => m.role == Role.system)).isSome then 1 else 0))
          = [] := by
        rw [List.drop_eq_nil_iff]
        omega
      have hemp : ((msgs.take (msgs.length - 4)).drop
          (if (msgs.find? (fun m => m.role == Role.system)).isSome then 1 else 0)).isEmpty
          = true := by
        rw [List.isEmpty_iff]
        exact hcode
      unfold compact
      rw [if_neg hlen]
      simp only [hemp, if_true]

/-- The rebuilt history exactly as the original claim C6 words it: only a
*leading* system message is preserved in front. -/
def specRebuildSuccess (msgs : List ChatMessage) (summary : String) :
    List ChatMessage :=
  (match msgs with
   | m :: _ => if m.role == Role.system then [m] else []
   | [] => []) ++ [summaryUserMessage summary, ackMessage]
    ++ msgs.drop (msgs.length - 4)

/-- A provider whose summarization always succeeds with summary "SUM". -/
def cProvider : Provider :=
  fun _ _ => .ok { content := some "SUM", toolCalls := [], usage := none }

/-- C6's counterexample history: six messages whose system message sits
at index 1, not at the front. -/
def c6msgs : List ChatMessage :=
  [{ role := .user, content := some "a" }, { role := .system, content := some "s" },
   { role := .user, content := some "b" }, { role := .user, content := some "c" },
   { role := .user, content := some "d" }, { role := .user, content := some "e" }]

/-- C6 counterexample: on a ≥4-message history with non-empty middle and
a succeeding summarization call, the rebuilt history is not
[leading system message if present, summary, acknowledgment, last 4]:
the code hoists the non-leading system message to the front (7 messages
instead of the claimed 6). -/
theorem claimC6_counterexample :
    4 ≤ c6msgs.length ∧ specMiddle c6msgs ≠ [] ∧ codeMiddle c6msgs ≠ [] ∧
      cProvider (buildSummaryPrompt (codeMiddle c6msgs)) none
        = .ok { content := some "SUM", toolCalls := [], usage := none } ∧
      (compact cProvider c6msgs).1 ≠ specRebuildSuccess c6msgs "SUM" ∧
      (compact cProvider c6msgs).1.length = 7 ∧
      (specRebuildSuccess c6msgs "SUM").length = 6 :=
  ⟨by decide, by decide, by decide, rfl, by decide, by decide, by decide⟩

/-- C6's witness history: a leading system message and five user
messages. -/
def c6wmsgs : List ChatMessage :=
  [{ role := .system, content := some "s" }, { role := .user, content := some "1" },
   { role := .user, content := some "2" }, { role := .user, content := some "3" },
   { role := .user, content := some "4" }, { role := .user, content := some "5" }]

/-- Witness instantiating `claimC6_compactRebuild` (success case) on
`c6wmsgs`. -/
theorem claimC6_witness :
    compact cProvider c6wmsgs
      = ((c6wmsgs.find? (fun m => m.role == Role.system)).toList
          ++ [summaryUserMessage "SUM"] ++ [ackMessage]
          ++ c6wmsgs.drop (c6wmsgs.length - 4), 1) :=
  (claimC6_compactRebuild cProvider c6wmsgs (by decide) (by decide)).1
    { content := some "SUM", toolCalls := [], usage := none } rfl

/-- C7's witness history: three user messages. -/
def c7msgs : List ChatMessage :=
  [{ role := .user, content := some "1" }, { role := .user, content := some "2" },
   { role := .user, content := some "3" }]

/-- Witness instantiating `claimC7_compactNoop` on `c7msgs`. -/
theorem claimC7_witness : compact cProvider c7msgs = (c7msgs, 0) :=
  claimC7_compactNoop cProvider c7msgs (Or.inl (by decide))

/-! ## Agent loop (`src/core/agent-loop.ts`) -/

/-- `buildToolResultMessage` (`message-builder.ts`). -/
def buildToolResultMessage (toolCallId : String) (result : ToolResult) :
    ChatMessage :=
  let content := if result.success then result.output
    else "Error: " ++ (result.error.getD "Unknown error") ++ "\n" ++ result.output
  { role := .tool, content := some (content.take 50000),
    toolCallId := some toolCallId }

/-- `AgentLoopResult`. -/
structure AgentLoopResult where
  finalContent : String
  turns : Nat
  totalTokens : Nat
  aborted : Bool
deriving DecidableEq

/-- The state the loop mutates across turns: the context manager's
message list, `finalContent` and `totalTokens`. -/
structure LoopState where
  messages : List ChatMessage
  finalContent : String
  totalTokens : Nat

/-- The `while (turns < maxTurns && !this.aborted)` loop of
`AgentLoop.run`, with `fuel = maxTurns - turns` remaining iterations.
Each turn: compact when over budget, call the Provider with the full
history and tool schemas, account usage, record truthy content as
`finalContent`; with tool calls present append one assistant message and
one tool-result message per call (executed strictly sequentially through
`executeTool`) and continue; otherwise append the assistant content (if
truthy) and stop; a Provider exception stops the run with
`finalContent = "Error: " + message`.  Models executions in which
`abort()` is never called, the flag being set only by an external
concurrent caller. -/
def loopGo (provider : Provider) (reg : ToolRegistry) (perm : PermissionManager)
    (askUser : String → String) (model : String) :
    Nat → Nat → LoopState → Nat × LoopState
  | 0, turns, st => (turns, st)
  | fuel + 1, turns, st =>
    let msgs := if needsCompaction model st.messages
      then (compact provider st.messages).1 else st.messages
    match provider msgs (some reg.toOpenAI) with
    | .error e =>
      (turns + 1, { messages := msgs, finalContent := "Error: " ++ e,
                    totalTokens := st.totalTokens })
    | .ok resp =>
      let tokens := st.totalTokens + resp.usage.getD 0
      let final := match strTruthy resp.content with
        | some c => c
        | none => st.finalContent
      if 0 < resp.toolCalls.length then
        let assistantMsg : ChatMessage :=
          { role := .assistant, content := resp.content, toolCalls := resp.toolCalls }
        let toolMsgs := resp.toolCalls.map (fun tc =>
          buildToolResultMessage tc.id (executeTool reg perm askUser tc).result)
        loopGo provider reg perm askUser model fuel (turns + 1)
          { messages := msgs ++ [assistantMsg] ++ toolMsgs,
            finalContent := final, totalTokens := tokens }
      else
        let msgs' := match strTruthy resp.content with
          | some c => msgs ++ [{ role := .assistant, content := some c }]
          | none => msgs
        (turns + 1, { messages := msgs', finalContent := final,
                      totalTokens := tokens })

/-- `AgentLoop.run`: append the user message to the initial history (the
constructor-built system prompt), run up to `maxTurns` turns, and append
the turn-limit marker when `turns >= maxTurns`; turn-limit exhaustion is
not an error (`aborted = false`, no exception). -/
def runAgentLoop (provider : Provider) (reg : ToolRegistry)
    (perm : PermissionManager) (askUser : String → String) (model : String)
    (maxTurns : Nat) (initMsgs : List ChatMessage) (userMessage : String) :
    AgentLoopResult :=
  let st0 : LoopState :=
    { messages := initMsgs ++ [{ role := .user, content := some userMessage }],
      finalContent := "", totalTokens := 0 }
  let r := loopGo provider reg perm askUser model maxTurns 0 st0
  { finalContent := if r.1 ≥ maxTurns
      then r.2.finalContent ++ "\n\n[Max turns reached]"
      else r.2.finalContent,
    turns := r.1, totalTokens := r.2.totalTokens, aborted := false }

/-! ## Claim C5 -/

theorem loopGo_always_tools (provider : Provider) (reg : ToolRegistry)
    (perm : PermissionManager) (ask : String → String) (model : String)
    (hp : ∀ msgs tools, ∃ resp, provider msgs tools = .ok resp ∧
      resp.toolCalls ≠ []) :
    ∀ (fuel turns : Nat) (st : LoopState),
      (loopGo provider reg perm ask model fuel turns st).1 = turns + fuel := by
  intro fuel
  induction fuel with
  | zero => intro turns st; simp [loopGo]
  | succ f ih =>
    intro turns st
    obtain ⟨resp, hok, hne⟩ := hp
      (if needsCompaction model st.messages
        then (compact provider st.messages).1 else st.messages)
      (some reg.toOpenAI)
    have hlen : 0 < resp.toolCalls.length := List.length_pos.2 hne
    unfold loopGo
    simp only [hok, hlen, if_pos]
    rw [ih]
    omega

/-- C5: against a Provider that answers every call successfully and with
at least one tool call, `run` with `maxTurns ≥ 1` performs exactly
`maxTurns` turns, reports `aborted = false`, and its `finalContent`
carries the `[Max turns reached]` marker (as a suffix); turn-limit
exhaustion is not an error. -/
theorem claimC5_turnLimit (provider : Provider) (reg : ToolRegistry)
    (perm : PermissionManager) (ask : String → String) (model : String)
    (maxTurns : Nat) (initMsgs : List ChatMessage) (userMsg : String)
    (_hmax : 1 ≤ maxTurns)
    (hp : ∀ msgs tools, ∃ resp, provider msgs tools = .ok resp ∧
      resp.toolCalls ≠ []) :
    (runAgentLoop provider reg perm ask model maxTurns initMsgs userMsg).turns
      = maxTurns ∧
    (runAgentLoop provider reg perm ask model maxTurns initMsgs userMsg).aborted
      = false ∧
    ∃ s, (runAgentLoop provider reg perm ask model maxTurns initMsgs
      userMsg).finalContent = s ++ "\n\n[Max turns reached]" := by
  have hturns := loopGo_always_tools provider reg perm ask model hp maxTurns 0
    { messages := initMsgs ++ [{ role := .user, content := some userMsg }],
      finalContent := "", totalTokens := 0 }
  refine ⟨?_, rfl, ?_⟩
  · unfold runAgentLoop
    simpa using hturns
  · unfold runAgentLoop
    simp only [hturns]
    rw [if_pos (by omega)]
    exact ⟨_, rfl⟩

/-- C5's witness provider: every call succeeds and requests one tool
call. -/
def c5provider : Provider :=
  fun _ _ =>
    .ok { content := none,
          toolCalls := [{ id := "1", name := "T", arguments := ⟨none, none⟩ }],
          usage := none }

/-- Empty registry for C5's witness (the requested tool is unknown; the
failed tool result feeds back into the next turn, as in the source). -/
def c5reg : ToolRegistry := { tools := [] }

/-- Permission manager for C5's witness. -/
def c5mgr : PermissionManager :=
  { rules := [], mode := .default, sessionAllowed := [] }

/-- Witness instantiating `claimC5_turnLimit` with `maxTurns = 3` (the
spec §8 scenario). -/
theorem claimC5_witness :
    (runAgentLoop c5provider c5reg c5mgr (fun _ => "") "qwen3:8b" 3 [] "go").turns
      = 3 ∧
    (runAgentLoop c5provider c5reg c5mgr (fun _ => "") "qwen3:8b" 3 [] "go").aborted
      = false ∧
    ∃ s, (runAgentLoop c5provider c5reg c5mgr (fun _ => "") "qwen3:8b" 3 []
      "go").finalContent = s ++ "\n\n[Max turns reached]" :=
  claimC5_turnLimit c5provider c5reg c5mgr (fun _ => "") "qwen3:8b" 3 [] "go"
    (by omega) (fun msgs tools => ⟨_, rfl, by decide⟩)

/-! ## Message bus (`src/teams/message-bus.ts`) -/

/-- `MessageType`. -/
inductive MessageType
  | message
  | idle
  | task_update
  | shutdown
  | broadcast
deriving DecidableEq

/-- `TeamMessage`; the fields `sender` and `recipient` render the
source's `from` and `to` (both reserved words in Lean). -/
structure TeamMessage where
  id : String
  sender : String
  recipient : String
  content : String
  timestamp : Nat
  type : MessageType
deriving DecidableEq

/-- A subscriber handler: `hid` identifies it in the delivery log; `run`
returns `some text` when the handler throws (the exception rendered as
text) and `none` when it returns normally. -/
structure Handler where
  hid : Nat
  run : TeamMessage → Option String

/-- Bus state: the subscriber `Map` (association list with unique keys,
insertion order) and the message history. -/
structure MessageBus where
  subscribers : List (String × List Handler)
  history : List TeamMessage

/-- `Map.set` on the subscriber list. -/
def setSubscriber : List (String × List Handler) → String → List Handler →
    List (String × List Handler)
  | [], n, hs => [(n, hs)]
  | (k, v) :: rest, n, hs =>
    if k == n then (n, hs) :: rest else (k, v) :: setSubscriber rest n hs

/-- `this.subscribers.get(name) ?? []`. -/
def handlersOf (bus : MessageBus) (name : String) : List Handler :=
  ((bus.subscribers.find? (fun p => p.1 == name)).map (fun p => p.2)).getD []

/-- `MessageBus.subscribe`. -/
def subscribe (bus : MessageBus) (agentName : String) (h : Handler) : MessageBus :=
  { bus with subscribers :=
      setSubscriber bus.subscribers agentName (handlersOf bus agentName ++ [h]) }

/-- The `for (const handler of handlers) { try { handler(msg) } catch
{ log } }` delivery loop: the log records every handler's id and outcome;
a thrown exception is caught — the recursion continues past it — and
never propagates. -/
def deliverAll : List Handler → TeamMessage → List (Nat × Option String)
  | [], _ => []
  | h :: rest, msg => (h.hid, h.run msg) :: deliverAll rest msg

/-- `MessageBus.send`: construct the message (uuid modelled by `freshId`,
`Date.now()` by `now`), append it to history, then deliver to every
handler subscribed under the recipient; returns the message together with the new
bus state and the delivery log. -/
def send (bus : MessageBus) (freshId sender recipient content : String) (now : Nat)
    (type : MessageType) :
    TeamMessage × MessageBus × List (Nat × Option String) :=
  let msg : TeamMessage :=
    { id := freshId, sender := sender, recipient := recipient, content := content,
      timestamp := now, type := type }
  (msg, { bus with history := bus.history ++ [msg] },
    deliverAll (handlersOf bus recipient) msg)

/-! ## Claim C8 -/

theorem deliverAll_eq_map (msg : TeamMessage) :
    ∀ hs : List Handler, deliverAll hs msg = hs.map (fun h => (h.hid, h.run msg)) := by
  intro hs
  induction hs with
  | nil => rfl
  | cons h rest ih => simp [deliverAll, ih]

/-- C8: `send` appends the message to history and invokes every handler
subscribed under the recipient, in subscription order, each exactly once
with that same message — the delivery log equals the full handler list
paired with each handler's own outcome, so a handler that throws (outcome
`some e`, caught by the loop) does not prevent any other handler's
invocation — and `send`, a total function, returns the constructed
message normally to the sender. -/
theorem claimC8_sendIsolation (bus : MessageBus)
    (freshId sender recipient content : String) (now : Nat) (type : MessageType) :
    (send bus freshId sender recipient content now type).1
      = { id := freshId, sender := sender, recipient := recipient, content := content,
          timestamp := now, type := type } ∧
    (send bus freshId sender recipient content now type).2.1.history
      = bus.history ++ [(send bus freshId sender recipient content now type).1] ∧
    (send bus freshId sender recipient content now type).2.1.subscribers
      = bus.subscribers ∧
    (send bus freshId sender recipient content now type).2.2
      = (handlersOf bus recipient).map (fun h =>
          (h.hid, h.run (send bus freshId sender recipient content now type).1)) ∧
    ∀ h ∈ handlersOf bus recipient,
      (h.hid, h.run (send bus freshId sender recipient content now type).1)
        ∈ (send bus freshId sender recipient content now type).2.2 := by
  refine ⟨rfl, rfl, rfl, deliverAll_eq_map _ _, ?_⟩
  intro h hmem
  rw [show (send bus freshId sender recipient content now type).2.2
    = deliverAll (handlersOf bus recipient)
        (send bus freshId sender recipient content now type).1 from rfl]
  rw [deliverAll_eq_map]
  exact List.mem_map_of_mem _ hmem

end Temu
